import Mathlib

/-!
Shallow embedding of the bugathon tracker's ingestion-and-scoring engine
(the `JiraSyncService` class: ticket normalization, score aggregation,
badge evaluation, daily statistics, achievement granting, and the sync
orchestrator).

Store tables are lists of rows with upsert-by-key semantics.  Every
persistence-layer call site can be made to fail through a `Scenario` of
injected errors, matching the supabase client's convention of returning an
error value (with `data` null) instead of throwing; the axios fetch, which
does throw, is modelled as an `Except` value.  Point values are rationals
(the reporter rule multiplies the sprint points by 0.5).  Each service
function also returns the list of transport/store call sites it executed,
so that short-circuiting and absence of retries are provable.
-/

namespace Bugathon

/-- Error detail carried by a failed transport or store call. -/
abbrev Err := String

/-- Raw Jira user identity (`accountId`, `displayName`). -/
structure RawUser where
  accountId : String
  displayName : String
deriving DecidableEq, Repr

/-- Raw Jira ticket (the `JiraTicket` interface): the fields the service
reads.  `customfield_10016` is the optional sprint-points field; timestamps
are ISO strings compared lexicographically, as the code does. -/
structure RawTicket where
  key : String
  summary : String
  status_name : String
  statusCategory_key : String
  reporter : RawUser
  assignee : Option RawUser
  customfield_10016 : Option Rat
  created : String
  resolutiondate : Option String
  priority_name : String
  issuetype_name : String
deriving DecidableEq, Repr

/-- Row of the `bugathon_tickets` table, as built by `processTickets`. -/
structure NormalizedTicket where
  key : String
  summary : String
  is_new_bug : Bool
  status : String
  status_category : String
  reporter_id : String
  reporter_name : String
  assignee_id : Option String
  assignee_name : String
  sprint_points : Rat
  reporter_points : Rat
  assignee_points : Rat
  created_at : String
  resolved_at : Option String
  priority : String
  issue_type : String
  last_updated : String
deriving DecidableEq, Repr

/-- Badge labels produced by `calculateBadges`.  Constructor names follow
the category tiers; each stands for the decorated string literal the source
pushes (`eliteHunter` for the "Bug Hunter Elite" label, `hunter` for
"Bug Hunter", `supremeSlayer` for "Bug Slayer Supreme", `slayer` for
"Bug Slayer", `pointMaster` for "Point Master", `risingStar` for
"Rising Star", `allRounder` for "All-Rounder", `speedDemon` for
"Speed Demon", `participant` for "Participant"). -/
inductive Badge where
  | eliteHunter
  | hunter
  | supremeSlayer
  | slayer
  | pointMaster
  | risingStar
  | allRounder
  | speedDemon
  | participant
deriving DecidableEq, Repr

/-- Row of the `user_scores` table. -/
structure UserScore where
  user_name : String
  bugs_reported : Nat
  bugs_fixed : Nat
  reporter_points : Rat
  assignee_points : Rat
  total_points : Rat
  badges : List Badge
  updated_at : String
deriving DecidableEq, Repr

/-- Row of the `daily_stats` table. -/
structure DailyStat where
  date : String
  bugs_created : Nat
  bugs_fixed : Nat
  points_earned : Rat
  active_users : Nat
deriving DecidableEq, Repr

/-- Row of the `achievements` table. -/
structure Achievement where
  user_name : String
  badge_name : String
  badge_icon : String
  description : String
  earned_at : String
deriving DecidableEq, Repr

/-- The persistence store: the four named collections. -/
structure Store where
  tickets : List NormalizedTicket
  user_scores : List UserScore
  daily_stats : List DailyStat
  achievements : List Achievement
deriving DecidableEq, Repr

/-- Outcome injected at each transport/store call site of one sync run.
`fetch` is the axios call (throws on failure); every other field is the
error component of the corresponding supabase result (`none` = the call
succeeds, `some e` = the call fails with error `e` and null data). -/
structure Scenario where
  fetch : Except Err (List RawTicket)
  ticketsUpsertErr : Option Err
  scoresTicketsRead : Option Err
  scoresUpsertErr : Option Err
  dailyCreatedRead : Option Err
  dailyFixedRead : Option Err
  dailyUpsertErr : Option Err
  achScoresRead : Option Err
  achSelectErr : Option Err
  achInsertErr : Option Err
deriving Repr

/-- Identifier of each transport/store call site, used for execution traces. -/
inductive CallId where
  | fetchJira
  | ticketsUpsert
  | scoresTicketsSelect
  | scoresUpsert
  | dailyCreatedSelect
  | dailyFixedSelect
  | dailyUpsert
  | achScoresSelect
  | achSelect
  | achInsert
deriving DecidableEq, Repr

/-- Result of `syncBugathonData`. -/
inductive SyncResult where
  | success (ticketsProcessed : Nat)
  | failure (error : Err)
deriving DecidableEq, Repr

/-- The uppercased marker list compared against the uppercased summary:
`"[BUGATHON NEW]"`. -/
def markerUpper : List Char := "[BUGATHON NEW]".toList

/-- The marker test of `processTickets`:
`ticket.fields.summary.toUpperCase().includes("[BUGATHON NEW]")`. -/
def summaryHasMarker (summary : String) : Bool :=
  decide (markerUpper <:+: summary.toList.map Char.toUpper)

/-- The per-ticket normalization inside `processTickets`: one RawTicket to
one row of `bugathon_tickets`.  JS falsy defaults: a missing or zero
points field becomes 0, a missing assignee id becomes null, a missing or
empty assignee display name becomes the "Unassigned" sentinel, a missing
resolution date stays null. -/
def normalizeTicket (now : String) (t : RawTicket) : NormalizedTicket :=
  let isNewBug := summaryHasMarker t.summary
  let sprintPoints := t.customfield_10016.getD 0
  let isDone := t.statusCategory_key == "done"
  { key := t.key
    summary := t.summary
    is_new_bug := isNewBug
    status := t.status_name
    status_category := t.statusCategory_key
    reporter_id := t.reporter.accountId
    reporter_name := t.reporter.displayName
    assignee_id :=
      match t.assignee with
      | some a => if a.accountId == "" then none else some a.accountId
      | none => none
    assignee_name :=
      match t.assignee with
      | some a => if a.displayName == "" then "Unassigned" else a.displayName
      | none => "Unassigned"
    sprint_points := sprintPoints
    reporter_points := if isNewBug then sprintPoints * 0.5 else 0
    assignee_points := if isDone then sprintPoints else 0
    created_at := t.created
    resolved_at := t.resolutiondate
    priority := t.priority_name
    issue_type := t.issuetype_name
    last_updated := now }

/-- `calculateBadges`: pure function of the user's aggregate counters,
category by category (Hunter, Slayer, Points, Versatility, Velocity),
defaulting to the single "Participant" label. -/
def calculateBadges (bugs_reported bugs_fixed : Nat) (total_points : Rat) :
    List Badge :=
  let badges : List Badge := []
  let badges :=
    if bugs_reported ≥ 10 then badges ++ [.eliteHunter]
    else if bugs_reported ≥ 5 then badges ++ [.hunter]
    else badges
  let badges :=
    if bugs_fixed ≥ 10 then badges ++ [.supremeSlayer]
    else if bugs_fixed ≥ 5 then badges ++ [.slayer]
    else badges
  let badges :=
    if total_points ≥ 100 then badges ++ [.pointMaster]
    else if total_points ≥ 50 then badges ++ [.risingStar]
    else badges
  let badges :=
    if bugs_reported > 0 ∧ bugs_fixed > 0 then badges ++ [.allRounder]
    else badges
  let badges :=
    if bugs_fixed ≥ 3 then badges ++ [.speedDemon]
    else badges
  if badges.length > 0 then badges else [.participant]

/-- Per-user accumulator seeded on first encounter
(`userScores.set(name, { user_name: name, bugs_reported: 0, ... })`). -/
structure Acc where
  user_name : String
  bugs_reported : Nat
  bugs_fixed : Nat
  reporter_points : Rat
  assignee_points : Rat
  total_points : Rat
deriving DecidableEq, Repr

/-- Fresh accumulator for user `n`. -/
def seedAcc (n : String) : Acc :=
  { user_name := n, bugs_reported := 0, bugs_fixed := 0,
    reporter_points := 0, assignee_points := 0, total_points := 0 }

/-- The JS `Map` of `updateUserScores`, as an association list in insertion
order (JS `Map` keys are unique and iterate in insertion order). -/
abbrev AccMap := List (String × Acc)

/-- `userScores.get(k)` (first matching key). -/
def mapGet (m : AccMap) (k : String) : Option Acc :=
  (m.find? (fun p => p.1 == k)).map (fun p => p.2)

/-- `userScores.has(k)`. -/
def hasKey (m : AccMap) (k : String) : Bool :=
  (m.find? (fun p => p.1 == k)).isSome

/-- In-place mutation of the entry at the first occurrence of key `k`. -/
def updEntry : AccMap → String → (Acc → Acc) → AccMap
  | [], _, _ => []
  | (k', v) :: rest, k, f =>
      if k' == k then (k', f v) :: rest else (k', v) :: updEntry rest k f

/-- Seed-if-absent then mutate:
`if (!userScores.has(k)) userScores.set(k, seed); userScores.get(k)` and
mutate the returned accumulator. -/
def bump (m : AccMap) (k : String) (f : Acc → Acc) : AccMap :=
  updEntry (if hasKey m k then m else m ++ [(k, seedAcc k)]) k f

/-- Reporter-side mutation: `user.bugs_reported++;
user.reporter_points += ticket.reporter_points`. -/
def applyRep (t : NormalizedTicket) (u : Acc) : Acc :=
  { u with bugs_reported := u.bugs_reported + 1,
           reporter_points := u.reporter_points + t.reporter_points }

/-- Assignee-side mutation: `user.bugs_fixed++;
user.assignee_points += ticket.assignee_points`. -/
def applyFix (t : NormalizedTicket) (u : Acc) : Acc :=
  { u with bugs_fixed := u.bugs_fixed + 1,
           assignee_points := u.assignee_points + t.assignee_points }

/-- The reporter-side guard of the loop body:
`ticket.is_new_bug && ticket.reporter_name` (an empty name is falsy). -/
def repCond (t : NormalizedTicket) : Bool :=
  t.is_new_bug && !(t.reporter_name == "")

/-- The assignee-side guard of the loop body:
`ticket.status_category === "done" && ticket.assignee_name !== "Unassigned"`. -/
def fixCond (t : NormalizedTicket) : Bool :=
  (t.status_category == "done") && !(t.assignee_name == "Unassigned")

/-- The body of the `tickets.forEach` loop of `updateUserScores`:
reporter-side update (new bug, reporter name truthy), then assignee-side
update (done, assignee name not the sentinel). -/
def stepTicket (m : AccMap) (t : NormalizedTicket) : AccMap :=
  let m1 :=
    if repCond t then bump m t.reporter_name (applyRep t)
    else m
  if fixCond t then bump m1 t.assignee_name (applyFix t)
  else m1

/-- The per-user post-pass of `updateUserScores`: set
`total_points = reporter_points + assignee_points`, evaluate badges and
stamp `updated_at`. -/
def finalizeAcc (now : String) (u : Acc) : UserScore :=
  let total := u.reporter_points + u.assignee_points
  { user_name := u.user_name
    bugs_reported := u.bugs_reported
    bugs_fixed := u.bugs_fixed
    reporter_points := u.reporter_points
    assignee_points := u.assignee_points
    total_points := total
    badges := calculateBadges u.bugs_reported u.bugs_fixed total
    updated_at := now }

/-- The pure core of `updateUserScores`: the `scoresArray` computed from
the rows read fresh from `bugathon_tickets`. -/
def computeScores (now : String) (ts : List NormalizedTicket) :
    List UserScore :=
  (ts.foldl stepTicket []).map (fun p => finalizeAcc now p.2)

/-- supabase upsert of one record keyed by `key`: overwrite every row with
a matching key, or append when no row matches. -/
def replaceOrAppend {α : Type} (key : α → String) (tbl : List α) (r : α) :
    List α :=
  if tbl.any (fun x => key x == key r) then
    tbl.map (fun x => if key x == key r then r else x)
  else tbl ++ [r]

/-- supabase bulk upsert keyed by `key` (`onConflict`). -/
def upsertBy {α : Type} (key : α → String) (tbl : List α) (batch : List α) :
    List α :=
  batch.foldl (replaceOrAppend key) tbl

/-- `processTickets`: normalize the fetched batch and upsert it into
`bugathon_tickets` keyed by `key`; `if (error) throw error` propagates a
failed upsert to the caller. -/
def processTickets (sc : Scenario) (now : String) (tickets : List RawTicket)
    (st : Store) : Except Err Store × List CallId :=
  let processedTickets := tickets.map (normalizeTicket now)
  match sc.ticketsUpsertErr with
  | some e => (.error e, [.ticketsUpsert])
  | none =>
      (.ok { st with
              tickets := upsertBy (fun t => t.key) st.tickets processedTickets },
       [.ticketsUpsert])

/-- `updateUserScores`: read all of `bugathon_tickets` (a failed read gives
null data and the function returns early), accumulate per-user scores,
then upsert the score array keyed by `user_name` (the result of that
upsert is not checked, so a failed upsert is ignored and leaves the table
unchanged). -/
def updateUserScores (sc : Scenario) (now : String) (st : Store) :
    Store × List CallId :=
  match sc.scoresTicketsRead with
  | some _ => (st, [.scoresTicketsSelect])
  | none =>
      let scoresArray := computeScores now st.tickets
      match sc.scoresUpsertErr with
      | some _ => (st, [.scoresTicketsSelect, .scoresUpsert])
      | none =>
          ({ st with
              user_scores :=
                upsertBy (fun u => u.user_name) st.user_scores scoresArray },
           [.scoresTicketsSelect, .scoresUpsert])

/-- Filter of the first daily-stats read: `gte("created_at", today)`.
The lexicographic string comparison is stated on the character lists,
which is the same relation as `String` order. -/
def createdTodayFilter (today : String) (t : NormalizedTicket) : Bool :=
  decide (today.toList ≤ t.created_at.toList)

/-- Filter of the second daily-stats read:
`eq("status_category", "done").gte("resolved_at", today)`; a null
`resolved_at` never satisfies the comparison. -/
def fixedTodayFilter (today : String) (t : NormalizedTicket) : Bool :=
  (t.status_category == "done") &&
    (match t.resolved_at with
     | some d => decide (today.toList ≤ d.toList)
     | none => false)

/-- `updateDailyStats`: two filtered reads (each independently failable,
null data degrading to empty via `?.` and `|| 0`), then upsert one row
keyed by `date` (upsert result unchecked, so a failed upsert is ignored). -/
def updateDailyStats (sc : Scenario) (today : String) (st : Store) :
    Store × List CallId :=
  let todayTickets : Option (List NormalizedTicket) :=
    match sc.dailyCreatedRead with
    | some _ => none
    | none => some (st.tickets.filter (createdTodayFilter today))
  let fixedToday : Option (List NormalizedTicket) :=
    match sc.dailyFixedRead with
    | some _ => none
    | none => some (st.tickets.filter (fixedTodayFilter today))
  let stats : DailyStat :=
    { date := today
      bugs_created := (todayTickets.getD []).length
      bugs_fixed := (fixedToday.getD []).length
      points_earned :=
        (((fixedToday.getD []).map (fun t => t.assignee_points)).sum : Rat)
      active_users :=
        (((todayTickets.getD []).map (fun t => t.reporter_name)
            ++ (fixedToday.getD []).map (fun t => t.assignee_name)).dedup).length }
  let trace : List CallId := [.dailyCreatedSelect, .dailyFixedSelect, .dailyUpsert]
  match sc.dailyUpsertErr with
  | some _ => (st, trace)
  | none =>
      ({ st with daily_stats := upsertBy (fun d => d.date) st.daily_stats [stats] },
       trace)

/-- Key predicate of the achievements table: match on `(user_name, badge_name)`. -/
def achKey (userName badge : String) (a : Achievement) : Bool :=
  a.user_name == userName && a.badge_name == badge

/-- The `.select().eq(user).eq(badge).single()` call of `grantAchievement`:
data is the row when the call succeeds and exactly one row matches, null
otherwise (PostgREST errors on zero or several rows). -/
def singleRow (sc : Scenario) (tbl : List Achievement)
    (userName badge : String) : Option Achievement :=
  if sc.achSelectErr.isSome then none
  else
    match tbl.filter (achKey userName badge) with
    | [a] => some a
    | _ => none

/-- The row inserted by `grantAchievement`: `badge_icon` is the leading
token of the badge label (`badge.split(" ")[0]`). -/
def newAchievement (now userName badge desc : String) : Achievement :=
  { user_name := userName
    badge_name := badge
    badge_icon := (badge.splitOn " ").headD ""
    description := desc
    earned_at := now }

/-- `grantAchievement`: look up the existing `(user_name, badge_name)` row;
if absent, insert one with `badge_icon` the leading token of the badge
label and a fresh `earned_at`; if present, no-op.  The insert result is
unchecked, so a failed insert is ignored. -/
def grantAchievement (sc : Scenario) (now userName badge desc : String)
    (st : Store) : Store × List CallId :=
  match singleRow sc st.achievements userName badge with
  | some _ => (st, [.achSelect])
  | none =>
      match sc.achInsertErr with
      | some _ => (st, [.achSelect, .achInsert])
      | none =>
          ({ st with
              achievements :=
                st.achievements ++ [newAchievement now userName badge desc] },
           [.achSelect, .achInsert])

/-- The champion badge label granted by `checkAchievements`. -/
def championBadge : String := "🏆 Current Champion"

/-- `checkAchievements`: read `user_scores` ordered by `total_points`
descending (null data on a failed read returns early); if a top user
exists, grant the champion achievement. -/
def checkAchievements (sc : Scenario) (now : String) (st : Store) :
    Store × List CallId :=
  match sc.achScoresRead with
  | some _ => (st, [.achScoresSelect])
  | none =>
      let users := st.user_scores.mergeSort
        (fun a b => decide (b.total_points ≤ a.total_points))
      match users.head? with
      | none => (st, [.achScoresSelect])
      | some u =>
          let r := grantAchievement sc now u.user_name championBadge
            "Leading the bugathon!" st
          (r.1, .achScoresSelect :: r.2)

/-- `syncBugathonData`: fetch, normalize/write, score, daily stats,
achievements, inside one try/catch.  Only the fetch and the ticket-batch
upsert can throw; a thrown error yields the failure result. -/
def syncBugathonData (sc : Scenario) (now today : String) (st : Store) :
    SyncResult × Store × List CallId :=
  match sc.fetch with
  | .error e => (.failure e, st, [.fetchJira])
  | .ok tickets =>
      match processTickets sc now tickets st with
      | (.error e, tr) => (.failure e, st, .fetchJira :: tr)
      | (.ok st1, tr1) =>
          let r2 := updateUserScores sc now st1
          let r3 := updateDailyStats sc today r2.1
          let r4 := checkAchievements sc now r3.1
          (.success tickets.length, r4.1,
           .fetchJira :: (tr1 ++ r2.2 ++ r3.2 ++ r4.2))

/-! ## Spec-side definitions

Definitions below follow the wording of the specification; they are
compared against the source-derived functions above. -/

/-- The spec's reading of the marker test: the summary contains,
case-insensitively, the literal marker `pat` — some sublist of the summary
equals the marker up to case folding. -/
def containsCaseInsensitive (s pat : String) : Prop :=
  ∃ l, l <:+: s.toList ∧ l.map Char.toUpper = pat.toList.map Char.toUpper

/-- The claim's badge table: whether a badge applies to the given
counters (highest tier wins inside each category, `participant` is never
matched by a category). -/
def badgeApplies (r f : Nat) (p : Rat) : Badge → Bool
  | .eliteHunter => decide (10 ≤ r)
  | .hunter => decide (5 ≤ r) && !(decide (10 ≤ r))
  | .supremeSlayer => decide (10 ≤ f)
  | .slayer => decide (5 ≤ f) && !(decide (10 ≤ f))
  | .pointMaster => decide (100 ≤ p)
  | .risingStar => decide (50 ≤ p) && !(decide (100 ≤ p))
  | .allRounder => decide (0 < r) && decide (0 < f)
  | .speedDemon => decide (3 ≤ f)
  | .participant => false

/-- The claim's fixed category order: Hunter, Slayer, Points, Versatility,
Velocity. -/
def categoryOrder : List Badge :=
  [.eliteHunter, .hunter, .supremeSlayer, .slayer,
   .pointMaster, .risingStar, .allRounder, .speedDemon]

/-- The Badge Evaluator as the claim words it: the applicable badges in
fixed category order, or the single default label when none applies. -/
def specBadges (r f : Nat) (p : Rat) : List Badge :=
  let l := categoryOrder.filter (badgeApplies r f p)
  if l.isEmpty then [.participant] else l

/-- The badge list before the default, one tier per category in category
order. -/
def tierList (r f : Nat) (p : Rat) : List Badge :=
  (if r ≥ 10 then [Badge.eliteHunter]
   else if r ≥ 5 then [Badge.hunter] else [])
  ++ ((if f ≥ 10 then [Badge.supremeSlayer]
       else if f ≥ 5 then [Badge.slayer] else [])
  ++ ((if p ≥ 100 then [Badge.pointMaster]
       else if p ≥ 50 then [Badge.risingStar] else [])
  ++ ((if r > 0 ∧ f > 0 then [Badge.allRounder] else [])
  ++ (if f ≥ 3 then [Badge.speedDemon] else []))))

/-- Whether ticket `t` contributes to user `u` on the reporter side:
the reporter-side guard holds and `u` is the (truthy) reporter name. -/
def repHit (u : String) (t : NormalizedTicket) : Bool :=
  repCond t && (t.reporter_name == u)

/-- Whether ticket `t` contributes to user `u` on the assignee side:
the assignee-side guard holds and `u` is the (non-sentinel) assignee
name. -/
def fixHit (u : String) (t : NormalizedTicket) : Bool :=
  fixCond t && (t.assignee_name == u)

/-- Whether ticket `t` contributes to user `u` on the assignee side as the
claim words it: the ticket is done and its assignee name is present (not
empty) and not the "Unassigned" sentinel. -/
def fixHitPresent (u : String) (t : NormalizedTicket) : Bool :=
  (t.status_category == "done") && !(t.assignee_name == "") &&
    !(t.assignee_name == "Unassigned") && (t.assignee_name == u)

/-- Tickets that are not done-with-sentinel-assignee: dropping the others
is what "contributes nothing on the assignee side" means. -/
def notSentinelDone (t : NormalizedTicket) : Bool :=
  !((t.status_category == "done") && (t.assignee_name == "Unassigned"))

/-- Count of the new-bug tickets reported by `u`. -/
def specReported (u : String) (ts : List NormalizedTicket) : Nat :=
  ts.countP (repHit u)

/-- Sum of `reporter_points` over the new-bug tickets reported by `u`. -/
def specRepPoints (u : String) (ts : List NormalizedTicket) : Rat :=
  ((ts.filter (repHit u)).map (fun t => t.reporter_points)).sum

/-- Count of the done tickets assigned to `u`. -/
def specFixed (u : String) (ts : List NormalizedTicket) : Nat :=
  ts.countP (fixHit u)

/-- Sum of `assignee_points` over the done tickets assigned to `u`. -/
def specFixPoints (u : String) (ts : List NormalizedTicket) : Rat :=
  ((ts.filter (fixHit u)).map (fun t => t.assignee_points)).sum

/-- Whether user `u` gets an accumulator at all: some ticket hits `u` on
either side. -/
def involved (u : String) (ts : List NormalizedTicket) : Bool :=
  ts.any (fun t => repHit u t || fixHit u t)

/-- Whether user `u` qualifies for a UserScore as the claim words it. -/
def claimInvolved (u : String) (ts : List NormalizedTicket) : Bool :=
  ts.any (fun t => repHit u t || fixHitPresent u t)

/-- Add the whole contribution of `ts` for user `u` onto accumulator `a`. -/
def addContrib (u : String) (ts : List NormalizedTicket) (a : Acc) : Acc :=
  { a with
    bugs_reported := a.bugs_reported + specReported u ts
    reporter_points := a.reporter_points + specRepPoints u ts
    bugs_fixed := a.bugs_fixed + specFixed u ts
    assignee_points := a.assignee_points + specFixPoints u ts }

/-- Keys of the accumulator map, in insertion order. -/
def keysOf (m : AccMap) : List String := m.map (fun p => p.1)

/-- Every map entry's accumulator carries its own key as `user_name`. -/
def namesOk (m : AccMap) : Prop := ∀ p ∈ m, p.2.user_name = p.1

/-- Whether the name `u` appears anywhere in the ticket set, as a reporter
name or an assignee name. -/
def appearsIn (u : String) (ts : List NormalizedTicket) : Bool :=
  ts.any (fun t => t.reporter_name == u || t.assignee_name == u)

/-- Lookup of a user's row in the `user_scores` table. -/
def findScore (u : String) (tbl : List UserScore) : Option UserScore :=
  tbl.find? (fun s => s.user_name == u)

/-- Lookup of a date's row in the `daily_stats` table. -/
def findDaily (d : String) (tbl : List DailyStat) : Option DailyStat :=
  tbl.find? (fun s => s.date == d)

/-- The achievements-table invariant of the claim: at most one row per
`(user_name, badge_name)` pair. -/
def atMostOnePerKey (tbl : List Achievement) : Prop :=
  ∀ uN b, (tbl.filter (achKey uN b)).length ≤ 1

/-! ## Concrete inputs used by witnesses and counterexamples -/

/-- Concrete ticket with every optional field missing and a mixed-case
marker in the summary. -/
def rawMissing : RawTicket :=
  { key := "W1", summary := "report [bugathon NEW] crash",
    status_name := "Open", statusCategory_key := "open",
    reporter := { accountId := "r1", displayName := "alice" },
    assignee := none, customfield_10016 := none, created := "2024-01-01",
    resolutiondate := none, priority_name := "P1", issuetype_name := "Bug" }

/-- Concrete ticket without the marker and outside the "done" category. -/
def rawPlain : RawTicket :=
  { key := "W2", summary := "memory leak", status_name := "Open",
    statusCategory_key := "open",
    reporter := { accountId := "r2", displayName := "bob" },
    assignee := none, customfield_10016 := some 8, created := "2024-01-01",
    resolutiondate := none, priority_name := "P1", issuetype_name := "Bug" }

/-- Concrete done ticket assigned to bob, worth 8 points. -/
def rawDone : RawTicket :=
  { key := "W3", summary := "stack overflow", status_name := "Done",
    statusCategory_key := "done",
    reporter := { accountId := "r3", displayName := "carol" },
    assignee := some { accountId := "a1", displayName := "bob" },
    customfield_10016 := some 8, created := "2024-01-01",
    resolutiondate := some "2024-01-02", priority_name := "P1",
    issuetype_name := "Bug" }

/-- Count of the done tickets assigned to `u`, as the claim words the
assignee side (presence check included). -/
def claimFixed (u : String) (ts : List NormalizedTicket) : Nat :=
  ts.countP (fixHitPresent u)

/-- Sum of `assignee_points` over the done tickets assigned to `u`, as the
claim words the assignee side. -/
def claimFixPoints (u : String) (ts : List NormalizedTicket) : Rat :=
  ((ts.filter (fixHitPresent u)).map (fun t => t.assignee_points)).sum

/-- Scenario in which every transport and store call succeeds. -/
def scAllOk : Scenario :=
  { fetch := .ok [], ticketsUpsertErr := none, scoresTicketsRead := none,
    scoresUpsertErr := none, dailyCreatedRead := none,
    dailyFixedRead := none, dailyUpsertErr := none, achScoresRead := none,
    achSelectErr := none, achInsertErr := none }

/-- Pre-existing score row of a user who has left the ticket set. -/
def oldScore : UserScore :=
  { user_name := "nobody", bugs_reported := 2, bugs_fixed := 0,
    reporter_points := 1, assignee_points := 0, total_points := 1,
    badges := [.participant], updated_at := "T-1" }

/-- Store holding one done ticket and the stale score row. -/
def stWithOld : Store :=
  { tickets := [normalizeTicket "T0" rawDone], user_scores := [oldScore],
    daily_stats := [], achievements := [] }

/-- Concrete done ticket with no assignee: it normalizes to the sentinel
name. -/
def rawDoneUnassigned : RawTicket :=
  { key := "W4", summary := "dangling pointer", status_name := "Done",
    statusCategory_key := "done",
    reporter := { accountId := "r4", displayName := "carol" },
    assignee := none, customfield_10016 := some 5, created := "2024-01-01",
    resolutiondate := some "2024-01-02", priority_name := "P2",
    issuetype_name := "Bug" }

/-- Concrete new-bug ticket whose reporter display name is literally
"Unassigned". -/
def rawUnassignedReporter : RawTicket :=
  { key := "W5", summary := "[Bugathon New] rounding error",
    status_name := "Open", statusCategory_key := "open",
    reporter := { accountId := "r5", displayName := "Unassigned" },
    assignee := none, customfield_10016 := some 4, created := "2024-01-01",
    resolutiondate := none, priority_name := "P2", issuetype_name := "Bug" }

/-- Mixed normalized ticket set: a done ticket of bob, a done unassigned
ticket, and a new bug reported by a user literally named "Unassigned". -/
def ticketsMixed : List NormalizedTicket :=
  [normalizeTicket "T0" rawDone, normalizeTicket "T0" rawDoneUnassigned,
   normalizeTicket "T0" rawUnassignedReporter]

/-- Store holding the mixed ticket set and nothing else. -/
def stMixed : Store :=
  { tickets := ticketsMixed, user_scores := [], daily_stats := [],
    achievements := [] }

/-- The empty store. -/
def stEmpty : Store :=
  { tickets := [], user_scores := [], daily_stats := [], achievements := [] }

/-- Scenario with a failing transport call. -/
def scFetchFail : Scenario := { scAllOk with fetch := .error "boom" }

/-- Scenario fetching one ticket with a failing ticket-batch upsert. -/
def scUpsertFail : Scenario :=
  { scAllOk with fetch := .ok [rawDone], ticketsUpsertErr := some "db down" }

/-- Scenario fetching two tickets with every call succeeding. -/
def scTwoTickets : Scenario :=
  { scAllOk with fetch := .ok [rawMissing, rawDone] }

/-- The error of the failing ticket read during score aggregation. -/
def errScoreRead : Err := "score read failed"

/-- Scenario fetching one ticket in which the ticket-set read of the score
aggregation step fails. -/
def scScoreReadFail : Scenario :=
  { scAllOk with
      fetch := .ok [rawDone]
      scoresTicketsRead := some errScoreRead }

/-! ## Theorems -/

/-- Case-folding the lowercase marker gives the uppercase marker list. -/
theorem marker_fold :
    "[bugathon new]".toList.map Char.toUpper = markerUpper := by decide

/-- The code's uppercase-and-include test agrees with the spec's
case-insensitive-containment reading of `is_new_bug`. -/
theorem summaryHasMarker_iff (s : String) :
    summaryHasMarker s = true ↔ containsCaseInsensitive s "[bugathon new]" := by
  rw [summaryHasMarker, decide_eq_true_eq]
  constructor
  · intro h
    have h' : ∃ u v, u ++ markerUpper ++ v = s.toList.map Char.toUpper := h
    obtain ⟨u, v, huv⟩ := h'
    have h2 : s.toList.map Char.toUpper = u ++ (markerUpper ++ v) := by
      rw [← huv, List.append_assoc]
    rw [List.map_eq_append_iff] at h2
    obtain ⟨l1, l2, hl, _, hm2⟩ := h2
    rw [List.map_eq_append_iff] at hm2
    obtain ⟨l3, l4, hl2, hm3, _⟩ := hm2
    refine ⟨l3, ⟨l1, l4, ?_⟩, ?_⟩
    · rw [List.append_assoc, ← hl2, ← hl]
    · rw [marker_fold, hm3]
  · rintro ⟨l, hinf, hmap⟩
    have hl : l.map Char.toUpper = markerUpper := by rw [hmap, marker_fold]
    have h' : ∃ u v, u ++ l ++ v = s.toList := hinf
    obtain ⟨u, v, huv⟩ := h'
    show ∃ x y, x ++ markerUpper ++ y = s.toList.map Char.toUpper
    refine ⟨u.map Char.toUpper, v.map Char.toUpper, ?_⟩
    rw [← hl, ← List.map_append, ← List.map_append, huv]

/-- C1: the Ticket Normalizer, on every RawTicket, yields a
NormalizedTicket where `is_new_bug` holds exactly when the summary
case-insensitively contains the marker "[bugathon new]"; a missing points
field defaults to sprint points 0, a missing assignee to the "Unassigned"
sentinel, a missing resolution date stays absent; `reporter_points` is
`sprint_points * 0.5` under `is_new_bug` and 0 otherwise, and
`assignee_points` is `sprint_points` under status category "done" and 0
otherwise; in particular each points field vanishes when its condition
fails. -/
theorem C1_ticketNormalizer (now : String) (t : RawTicket) :
    ((normalizeTicket now t).is_new_bug = true ↔
      containsCaseInsensitive t.summary "[bugathon new]") ∧
    (t.customfield_10016 = none → (normalizeTicket now t).sprint_points = 0) ∧
    (t.assignee = none → (normalizeTicket now t).assignee_name = "Unassigned") ∧
    (t.resolutiondate = none → (normalizeTicket now t).resolved_at = none) ∧
    ((normalizeTicket now t).reporter_points =
      if (normalizeTicket now t).is_new_bug = true then
        (normalizeTicket now t).sprint_points * 0.5 else 0) ∧
    ((normalizeTicket now t).assignee_points =
      if (normalizeTicket now t).status_category = "done" then
        (normalizeTicket now t).sprint_points else 0) ∧
    ((normalizeTicket now t).is_new_bug = false →
      (normalizeTicket now t).reporter_points = 0) ∧
    ((normalizeTicket now t).status_category ≠ "done" →
      (normalizeTicket now t).assignee_points = 0) := by
  refine ⟨summaryHasMarker_iff t.summary, ?_, ?_, ?_, ?_, ?_, ?_, ?_⟩
  · intro h; simp [normalizeTicket, h]
  · intro h; simp [normalizeTicket, h]
  · intro h; simp [normalizeTicket, h]
  · rfl
  · by_cases h : t.statusCategory_key = "done" <;>
      simp [normalizeTicket, h]
  · intro h; simp only [normalizeTicket] at h ⊢; rw [h]; simp
  · intro h; simp only [normalizeTicket] at h ⊢
    rw [if_neg]; simp only [beq_iff_eq]; exact h

/-- Witness for C1 at two concrete tickets. -/
theorem C1_ticketNormalizer_witness :
    containsCaseInsensitive "report [bugathon NEW] crash" "[bugathon new]" ∧
    (normalizeTicket "T0" rawMissing).sprint_points = 0 ∧
    (normalizeTicket "T0" rawMissing).assignee_name = "Unassigned" ∧
    (normalizeTicket "T0" rawMissing).resolved_at = none ∧
    (normalizeTicket "T0" rawPlain).reporter_points = 0 ∧
    (normalizeTicket "T0" rawPlain).assignee_points = 0 := by
  have hW := C1_ticketNormalizer "T0" rawMissing
  have hP := C1_ticketNormalizer "T0" rawPlain
  exact ⟨hW.1.mp (by decide), hW.2.1 rfl, hW.2.2.1 rfl, hW.2.2.2.1 rfl,
    hP.2.2.2.2.2.2.1 (by decide), hP.2.2.2.2.2.2.2 (by decide)⟩

/-- A two-tier conditional append factors through the accumulated list. -/
theorem append_tier (l : List Badge) (c c' : Prop) [Decidable c]
    [Decidable c'] (x y : Badge) :
    (if c then l ++ [x] else if c' then l ++ [y] else l) =
      l ++ (if c then [x] else if c' then [y] else []) := by
  split_ifs <;> simp

/-- A one-tier conditional append factors through the accumulated list. -/
theorem append_tier1 (l : List Badge) (c : Prop) [Decidable c] (x : Badge) :
    (if c then l ++ [x] else l) = l ++ (if c then [x] else []) := by
  split_ifs <;> simp

/-- The length test at the end of `calculateBadges` is the emptiness
default. -/
theorem length_pos_default (l : List Badge) :
    (if l.length > 0 then l else [Badge.participant]) =
      if l = [] then [Badge.participant] else l := by
  cases l <;> simp

/-- The successive appends of `calculateBadges` concatenate the per-category
tiers, and the final length test is the default fallback. -/
theorem calculateBadges_eq_tier (r f : Nat) (p : Rat) :
    calculateBadges r f p =
      if tierList r f p = [] then [Badge.participant] else tierList r f p := by
  simp only [calculateBadges]
  rw [append_tier1, append_tier1, append_tier, append_tier, append_tier,
    length_pos_default]
  unfold tierList
  simp [List.append_assoc]

/-- Filtering the Hunter category block. -/
theorem filter_hunter (r f : Nat) (p : Rat) :
    [Badge.eliteHunter, Badge.hunter].filter (badgeApplies r f p) =
      if r ≥ 10 then [Badge.eliteHunter]
      else if r ≥ 5 then [Badge.hunter] else [] := by
  by_cases h1 : 10 ≤ r <;> by_cases h2 : 5 ≤ r <;>
    simp [badgeApplies, List.filter, h1, h2, ge_iff_le]

/-- Filtering the Slayer category block. -/
theorem filter_slayer (r f : Nat) (p : Rat) :
    [Badge.supremeSlayer, Badge.slayer].filter (badgeApplies r f p) =
      if f ≥ 10 then [Badge.supremeSlayer]
      else if f ≥ 5 then [Badge.slayer] else [] := by
  by_cases h1 : 10 ≤ f <;> by_cases h2 : 5 ≤ f <;>
    simp [badgeApplies, List.filter, h1, h2, ge_iff_le]

/-- Filtering the Points category block. -/
theorem filter_points (r f : Nat) (p : Rat) :
    [Badge.pointMaster, Badge.risingStar].filter (badgeApplies r f p) =
      if p ≥ 100 then [Badge.pointMaster]
      else if p ≥ 50 then [Badge.risingStar] else [] := by
  by_cases h1 : (100 : Rat) ≤ p <;> by_cases h2 : (50 : Rat) ≤ p <;>
    simp [badgeApplies, List.filter, h1, h2, ge_iff_le]

/-- Filtering the Versatility category block. -/
theorem filter_allRounder (r f : Nat) (p : Rat) :
    [Badge.allRounder].filter (badgeApplies r f p) =
      if r > 0 ∧ f > 0 then [Badge.allRounder] else [] := by
  by_cases h1 : 0 < r <;> by_cases h2 : 0 < f <;>
    simp [badgeApplies, List.filter, h1, h2, gt_iff_lt]

/-- Filtering the Velocity category block. -/
theorem filter_speed (r f : Nat) (p : Rat) :
    [Badge.speedDemon].filter (badgeApplies r f p) =
      if f ≥ 3 then [Badge.speedDemon] else [] := by
  by_cases h1 : 3 ≤ f <;>
    simp [badgeApplies, List.filter, h1, ge_iff_le]

/-- The claim's filtered table equals the per-category tier concatenation. -/
theorem filter_eq_tier (r f : Nat) (p : Rat) :
    categoryOrder.filter (badgeApplies r f p) = tierList r f p := by
  rw [show categoryOrder =
    [Badge.eliteHunter, Badge.hunter] ++ ([Badge.supremeSlayer, Badge.slayer]
      ++ ([Badge.pointMaster, Badge.risingStar]
      ++ ([Badge.allRounder] ++ [Badge.speedDemon]))) from rfl]
  simp only [List.filter_append]
  rw [filter_hunter, filter_slayer, filter_points, filter_allRounder,
    filter_speed]
  rfl

/-- C3: the Badge Evaluator is a pure function of the three counters,
returning exactly the applicable highest-tier badge of each category in
the fixed category order, with the single "Participant" default, and it
maps the three sample inputs of the spec to the stated badge lists. -/
theorem C3_badgeEvaluator :
    (∀ (r f : Nat) (p : Rat), calculateBadges r f p = specBadges r f p) ∧
    calculateBadges 12 0 0 = [Badge.eliteHunter] ∧
    calculateBadges 6 6 60 =
      [Badge.hunter, Badge.slayer, Badge.risingStar,
       Badge.allRounder, Badge.speedDemon] ∧
    calculateBadges 0 0 0 = [Badge.participant] := by
  refine ⟨?_, by rfl, by rfl, by rfl⟩
  intro r f p
  rw [calculateBadges_eq_tier]
  unfold specBadges
  rw [filter_eq_tier]
  by_cases h : tierList r f p = [] <;> simp [h]

/-! ### Accumulator-map lemmas -/

/-- Lookup in a cons cell. -/
theorem mapGet_cons (k' : String) (v : Acc) (m : AccMap) (u : String) :
    mapGet ((k', v) :: m) u = if k' == u then some v else mapGet m u := by
  simp only [mapGet, List.find?_cons]
  cases h : (k' == u) <;> simp [h]

/-- Lookup distributes over append, first list winning. -/
theorem mapGet_append (m m' : AccMap) (u : String) :
    mapGet (m ++ m') u =
      match mapGet m u with
      | some a => some a
      | none => mapGet m' u := by
  induction m with
  | nil => simp [mapGet]
  | cons hd tl ih =>
      obtain ⟨k', v⟩ := hd
      rw [List.cons_append, mapGet_cons, mapGet_cons]
      cases h : (k' == u) <;> simp [ih]

/-- Key presence is lookup success. -/
theorem hasKey_eq (m : AccMap) (k : String) :
    hasKey m k = (mapGet m k).isSome := by
  unfold hasKey mapGet
  cases h : m.find? (fun p => p.1 == k) <;> simp [h]

/-- Lookup after an in-place update. -/
theorem mapGet_updEntry (m : AccMap) (k u : String) (f : Acc → Acc) :
    mapGet (updEntry m k f) u =
      if u = k then (mapGet m k).map f else mapGet m u := by
  induction m with
  | nil => by_cases hu : u = k <;> simp [updEntry, mapGet, hu]
  | cons hd tl ih =>
      obtain ⟨k', v⟩ := hd
      by_cases hk : k' = k
      · subst hk
        by_cases hu : u = k'
        · subst hu; simp [updEntry, mapGet_cons]
        · have h1 : (k' == u) = false :=
            beq_eq_false_iff_ne.mpr (fun h => hu h.symm)
          simp [updEntry, mapGet_cons, h1, hu]
      · have hbk : (k' == k) = false := beq_eq_false_iff_ne.mpr hk
        by_cases hu : u = k
        · subst hu
          have h1 : (k' == u) = false := beq_eq_false_iff_ne.mpr hk
          simp [updEntry, hbk, mapGet_cons, h1, ih]
        · simp [updEntry, hbk, mapGet_cons, ih, hu]

/-- Lookup after seed-if-absent-then-mutate. -/
theorem mapGet_bump (m : AccMap) (k u : String) (f : Acc → Acc) :
    mapGet (bump m k f) u =
      if u = k then some (f ((mapGet m k).getD (seedAcc k)))
      else mapGet m u := by
  unfold bump
  by_cases hk : hasKey m k = true
  · rw [if_pos hk, mapGet_updEntry]
    rw [hasKey_eq] at hk
    obtain ⟨a, ha⟩ := Option.isSome_iff_exists.mp hk
    by_cases hu : u = k <;> simp [hu, ha]
  · rw [if_neg hk, mapGet_updEntry]
    rw [hasKey_eq] at hk
    have hnone : mapGet m k = none := by
      cases h : mapGet m k
      · rfl
      · rw [h] at hk; simp at hk
    by_cases hu : u = k
    · subst hu
      rw [if_pos rfl, if_pos rfl, mapGet_append, hnone]
      simp [mapGet_cons, hnone]
    · rw [if_neg hu, if_neg hu, mapGet_append]
      have h1 : (k == u) = false := beq_eq_false_iff_ne.mpr (fun h => hu h.symm)
      cases h : mapGet m u <;> simp [h, mapGet_cons, h1, mapGet]

/-- Lookup after a guard-conditioned bump. -/
theorem mapGet_condBump (m : AccMap) (c : Bool) (k u : String)
    (g : Acc → Acc) :
    mapGet (if c = true then bump m k g else m) u =
      if c && (k == u) then some (g ((mapGet m u).getD (seedAcc u)))
      else mapGet m u := by
  cases c
  · simp
  · rw [if_pos rfl, mapGet_bump, Bool.true_and]
    by_cases hu : u = k
    · subst hu; simp
    · have h1 : (k == u) = false := beq_eq_false_iff_ne.mpr (fun h => hu h.symm)
      simp [hu, h1]

/-- Lookup after the whole loop body for one ticket: first the reporter
side applies when it hits `u`, then the assignee side. -/
theorem mapGet_step (m : AccMap) (t : NormalizedTicket) (u : String) :
    mapGet (stepTicket m t) u =
      if fixHit u t then
        some (applyFix t
          ((if repHit u t then
              some (applyRep t ((mapGet m u).getD (seedAcc u)))
            else mapGet m u).getD (seedAcc u)))
      else if repHit u t then
        some (applyRep t ((mapGet m u).getD (seedAcc u)))
      else mapGet m u := by
  show mapGet
      (if fixCond t = true then
        bump (if repCond t = true then bump m t.reporter_name (applyRep t) else m)
          t.assignee_name (applyFix t)
      else (if repCond t = true then bump m t.reporter_name (applyRep t) else m))
      u = _
  rw [mapGet_condBump, mapGet_condBump]
  simp only [repHit, fixHit]

/-- The empty ticket list contributes nothing. -/
theorem addContrib_nil (u : String) (a : Acc) : addContrib u [] a = a := by
  obtain ⟨n, br, bf, rp, ap, tp⟩ := a
  simp [addContrib, specReported, specRepPoints, specFixed, specFixPoints]

/-- Peeling one ticket off the contribution: apply its (possibly empty)
reporter-side and assignee-side mutations first, then the rest. -/
theorem addContrib_cons (u : String) (t : NormalizedTicket)
    (rest : List NormalizedTicket) (a : Acc) :
    addContrib u (t :: rest) a =
      addContrib u rest
        (if fixHit u t then
          applyFix t (if repHit u t then applyRep t a else a)
         else if repHit u t then applyRep t a else a) := by
  obtain ⟨n, br, bf, rp, ap, tp⟩ := a
  rcases hf : fixHit u t <;> rcases hr : repHit u t <;>
    simp [addContrib, applyRep, applyFix, specReported, specRepPoints,
      specFixed, specFixPoints, List.countP_cons, List.filter_cons, hf, hr] <;>
    and_intros <;> first | trivial | omega | ring

/-- Folding the loop body over a ticket list: the lookup for `u` is the
starting accumulator (seeded when absent but involved) plus the whole
contribution of the list. -/
theorem foldl_step_get (ts : List NormalizedTicket) (m : AccMap)
    (u : String) :
    mapGet (ts.foldl stepTicket m) u =
      match mapGet m u with
      | some a => some (addContrib u ts a)
      | none =>
          if involved u ts then some (addContrib u ts (seedAcc u)) else none := by
  induction ts generalizing m with
  | nil =>
      cases h : mapGet m u <;> simp [h, addContrib_nil, involved]
  | cons t rest ih =>
      rw [List.foldl_cons, ih, mapGet_step]
      rcases hf : fixHit u t <;> rcases hr : repHit u t <;>
        cases h : mapGet m u <;>
        simp [hf, hr, h, addContrib_cons, involved, List.any_cons]

/-- Keys of a cons cell. -/
theorem keysOf_cons (k' : String) (v : Acc) (tl : AccMap) :
    keysOf ((k', v) :: tl) = k' :: keysOf tl := rfl

/-- In-place updates do not change the key list. -/
theorem keysOf_updEntry (m : AccMap) (k : String) (f : Acc → Acc) :
    keysOf (updEntry m k f) = keysOf m := by
  induction m with
  | nil => rfl
  | cons hd tl ih =>
      obtain ⟨k', v⟩ := hd
      cases h : (k' == k) <;> simp [updEntry, h, keysOf_cons, ih]

/-- A bump appends the key exactly when it was absent. -/
theorem keysOf_bump (m : AccMap) (k : String) (f : Acc → Acc) :
    keysOf (bump m k f) =
      if hasKey m k then keysOf m else keysOf m ++ [k] := by
  unfold bump
  by_cases h : hasKey m k = true
  · rw [if_pos h, if_pos h, keysOf_updEntry]
  · rw [if_neg h, if_neg h, keysOf_updEntry]
    simp [keysOf]

/-- Key presence is membership in the key list. -/
theorem hasKey_iff_mem (m : AccMap) (k : String) :
    hasKey m k = true ↔ k ∈ keysOf m := by
  unfold hasKey keysOf
  rw [List.find?_isSome]
  constructor
  · rintro ⟨p, hp, hbeq⟩
    rw [beq_iff_eq] at hbeq
    exact hbeq ▸ List.mem_map_of_mem _ hp
  · intro hk
    rcases List.mem_map.mp hk with ⟨p, hp, hpk⟩
    exact ⟨p, hp, beq_iff_eq.mpr hpk⟩

/-- A bump preserves distinctness of the keys. -/
theorem nodup_keysOf_bump (m : AccMap) (k : String) (f : Acc → Acc)
    (h : (keysOf m).Nodup) : (keysOf (bump m k f)).Nodup := by
  rw [keysOf_bump]
  by_cases hk : hasKey m k = true
  · simpa [hk] using h
  · have hnm : k ∉ keysOf m := fun hmem => hk ((hasKey_iff_mem m k).mpr hmem)
    simp [hk, List.nodup_append, h, hnm]

/-- The loop body preserves distinctness of the keys. -/
theorem nodup_keysOf_step (m : AccMap) (t : NormalizedTicket)
    (h : (keysOf m).Nodup) : (keysOf (stepTicket m t)).Nodup := by
  simp only [stepTicket]
  cases hr : repCond t <;> cases hx : fixCond t <;> simp [hr, hx] <;>
    first
      | exact h
      | exact nodup_keysOf_bump _ _ _ h
      | exact nodup_keysOf_bump _ _ _ (nodup_keysOf_bump _ _ _ h)

/-- The whole fold preserves distinctness of the keys. -/
theorem nodup_keysOf_fold (ts : List NormalizedTicket) :
    ∀ m : AccMap, (keysOf m).Nodup → (keysOf (ts.foldl stepTicket m)).Nodup := by
  induction ts with
  | nil => intro m h; simpa using h
  | cons t rest ih =>
      intro m h
      rw [List.foldl_cons]
      exact ih _ (nodup_keysOf_step m t h)

/-- In-place updates preserve the name/key coherence when the mutation
keeps the user name. -/
theorem namesOk_updEntry (m : AccMap) (k : String) (f : Acc → Acc)
    (hf : ∀ a, (f a).user_name = a.user_name) :
    namesOk m → namesOk (updEntry m k f) := by
  induction m with
  | nil => intro _ p hp; simp [updEntry] at hp
  | cons hd tl ih =>
      obtain ⟨k', v⟩ := hd
      intro h
      have htl : namesOk tl := fun p hp => h p (List.mem_cons_of_mem _ hp)
      cases hkk : (k' == k)
      · simp only [updEntry, hkk, Bool.false_eq_true, if_false]
        intro p hp
        rcases List.mem_cons.mp hp with rfl | hp'
        · exact h (k', v) (List.mem_cons_self _ _)
        · exact ih htl p hp'
      · simp only [updEntry, hkk, if_true]
        intro p hp
        rcases List.mem_cons.mp hp with rfl | hp'
        · show (f v).user_name = k'
          rw [hf v]
          exact h (k', v) (List.mem_cons_self _ _)
        · exact h p (List.mem_cons_of_mem _ hp')

/-- Bumps preserve the name/key coherence. -/
theorem namesOk_bump (m : AccMap) (k : String) (f : Acc → Acc)
    (hf : ∀ a, (f a).user_name = a.user_name) (h : namesOk m) :
    namesOk (bump m k f) := by
  unfold bump
  by_cases hk : hasKey m k = true
  · rw [if_pos hk]; exact namesOk_updEntry m k f hf h
  · rw [if_neg hk]
    apply namesOk_updEntry _ k f hf
    intro p hp
    rcases List.mem_append.mp hp with hp' | hp'
    · exact h p hp'
    · rcases List.mem_singleton.mp hp' with rfl
      rfl

/-- The reporter-side mutation keeps the user name. -/
theorem applyRep_name (t : NormalizedTicket) (a : Acc) :
    (applyRep t a).user_name = a.user_name := rfl

/-- The assignee-side mutation keeps the user name. -/
theorem applyFix_name (t : NormalizedTicket) (a : Acc) :
    (applyFix t a).user_name = a.user_name := rfl

/-- The loop body preserves the name/key coherence. -/
theorem namesOk_step (m : AccMap) (t : NormalizedTicket) (h : namesOk m) :
    namesOk (stepTicket m t) := by
  simp only [stepTicket]
  cases hr : repCond t <;> cases hx : fixCond t <;> simp [hr, hx] <;>
    first
      | exact h
      | exact namesOk_bump _ _ _ (applyRep_name t) h
      | exact namesOk_bump _ _ _ (applyFix_name t) h
      | exact namesOk_bump _ _ _ (applyFix_name t)
          (namesOk_bump _ _ _ (applyRep_name t) h)

/-- The whole fold preserves the name/key coherence. -/
theorem namesOk_fold (ts : List NormalizedTicket) :
    ∀ m : AccMap, namesOk m → namesOk (ts.foldl stepTicket m) := by
  induction ts with
  | nil => intro m h; simpa using h
  | cons t rest ih =>
      intro m h
      rw [List.foldl_cons]
      exact ih _ (namesOk_step m t h)

/-- A successful lookup exhibits the entry. -/
theorem mapGet_eq_some_mem {m : AccMap} {u : String} {a : Acc}
    (h : mapGet m u = some a) : (u, a) ∈ m := by
  unfold mapGet at h
  cases hf : m.find? (fun p => p.1 == u) with
  | none => rw [hf] at h; simp at h
  | some p =>
      rw [hf] at h
      simp only [Option.map_some', Option.some.injEq] at h
      have hm := List.mem_of_find?_eq_some hf
      have hp := List.find?_some hf
      obtain ⟨p1, p2⟩ := p
      simp only [beq_iff_eq] at hp
      subst hp
      cases h
      exact hm

/-- With distinct keys, membership determines the lookup. -/
theorem mem_mapGet {m : AccMap} {k : String} {a : Acc} :
    (keysOf m).Nodup → (k, a) ∈ m → mapGet m k = some a := by
  induction m with
  | nil => intro _ h; simp at h
  | cons hd tl ih =>
      obtain ⟨k', v⟩ := hd
      intro hnd h
      rw [keysOf_cons, List.nodup_cons] at hnd
      rw [mapGet_cons]
      rcases List.mem_cons.mp h with heq | htl
      · injection heq with h1 h2
        subst h1
        subst h2
        simp
      · have hkmem : k ∈ keysOf tl := by
          have := List.mem_map_of_mem (fun p : String × Acc => p.1) htl
          simpa [keysOf] using this
        have hne : (k' == k) = false :=
          beq_eq_false_iff_ne.mpr (fun hcontra => hnd.1 (hcontra ▸ hkmem))
        rw [hne]
        simp only [Bool.false_eq_true, if_false]
        exact ih hnd.2 htl

/-- Any-predicate congruence on members. -/
theorem any_congr_mem {α : Type} (l : List α) (p q : α → Bool)
    (h : ∀ a ∈ l, p a = q a) : l.any p = l.any q := by
  induction l with
  | nil => rfl
  | cons a tl ih =>
      simp [List.any_cons, h a (List.mem_cons_self _ _),
        ih (fun b hb => h b (List.mem_cons_of_mem _ hb))]

/-- Count-predicate congruence on members. -/
theorem countP_congr_mem {α : Type} (l : List α) (p q : α → Bool)
    (h : ∀ a ∈ l, p a = q a) : l.countP p = l.countP q := by
  induction l with
  | nil => rfl
  | cons a tl ih =>
      rw [List.countP_cons, List.countP_cons, h a (List.mem_cons_self _ _),
        ih (fun b hb => h b (List.mem_cons_of_mem _ hb))]

/-- Filter-predicate congruence on members. -/
theorem filter_congr_mem {α : Type} (l : List α) (p q : α → Bool)
    (h : ∀ a ∈ l, p a = q a) : l.filter p = l.filter q := by
  induction l with
  | nil => rfl
  | cons a tl ih =>
      rw [List.filter_cons, List.filter_cons, h a (List.mem_cons_self _ _),
        ih (fun b hb => h b (List.mem_cons_of_mem _ hb))]

/-- Key presence in a cons cell. -/
theorem hasKey_cons (k' : String) (v : Acc) (tl : AccMap) (u : String) :
    hasKey ((k', v) :: tl) u = ((k' == u) || hasKey tl u) := by
  unfold hasKey
  cases hc : (k' == u)
  · rw [List.find?_cons_of_neg _ (by simp [hc])]
    simp
  · rw [List.find?_cons_of_pos _ (by simp [hc])]
    simp

/-- With distinct keys, each key is counted at most once, and exactly once
when present. -/
theorem countP_keys (u : String) :
    ∀ m : AccMap, (keysOf m).Nodup →
      m.countP (fun p => p.1 == u) = if hasKey m u then 1 else 0 := by
  intro m
  induction m with
  | nil => intro _; simp [hasKey]
  | cons hd tl ih =>
      obtain ⟨k', v⟩ := hd
      intro hnd
      rw [keysOf_cons, List.nodup_cons] at hnd
      rw [List.countP_cons, ih hnd.2, hasKey_cons]
      by_cases hk : k' = u
      · subst hk
        have hz : hasKey tl k' = false := by
          cases hh : hasKey tl k'
          · rfl
          · exact absurd ((hasKey_iff_mem tl k').mp hh) hnd.1
        simp [hz]
      · have hbeq : (k' == u) = false := beq_eq_false_iff_ne.mpr hk
        simp [hbeq]

/-- Lookup in the fold started from the empty map. -/
theorem mapGet_fold (ts : List NormalizedTicket) (u : String) :
    mapGet (ts.foldl stepTicket []) u =
      if involved u ts then some (addContrib u ts (seedAcc u)) else none := by
  have h := foldl_step_get ts [] u
  simpa [mapGet] using h

/-- Key presence in the fold is involvement. -/
theorem hasKey_fold (ts : List NormalizedTicket) (u : String) :
    hasKey (ts.foldl stepTicket []) u = involved u ts := by
  rw [hasKey_eq, mapGet_fold]
  cases h : involved u ts <;> simp

/-- The empty map has coherent names. -/
theorem namesOk_nil : namesOk ([] : AccMap) := by
  intro p hp; simp at hp

/-- The score array carries exactly one row for each involved user. -/
theorem computeScores_countP (now : String) (ts : List NormalizedTicket)
    (u : String) :
    (computeScores now ts).countP (fun s => s.user_name == u) =
      if involved u ts then 1 else 0 := by
  unfold computeScores
  rw [List.countP_map]
  have hok := namesOk_fold ts [] namesOk_nil
  have hnd := nodup_keysOf_fold ts [] (by simp [keysOf])
  rw [countP_congr_mem _ _ (fun p => p.1 == u)
    (fun p hp => by
      have h1 : (finalizeAcc now p.2).user_name = p.2.user_name := rfl
      show ((finalizeAcc now p.2).user_name == u) = (p.1 == u)
      rw [h1, hok p hp])]
  rw [countP_keys u _ hnd, hasKey_fold]

/-- Every row of the score array is the finalized full contribution of its
own (involved) user. -/
theorem computeScores_mem {now : String} {ts : List NormalizedTicket}
    {s : UserScore} (h : s ∈ computeScores now ts) :
    involved s.user_name ts = true ∧
    s = finalizeAcc now (addContrib s.user_name ts (seedAcc s.user_name)) := by
  unfold computeScores at h
  rcases List.mem_map.mp h with ⟨p, hp, rfl⟩
  have hok := namesOk_fold ts [] namesOk_nil p hp
  have hnd := nodup_keysOf_fold ts [] (by simp [keysOf])
  have hget : mapGet (ts.foldl stepTicket []) p.1 = some p.2 := by
    apply mem_mapGet hnd
    obtain ⟨p1, p2⟩ := p
    exact hp
  rw [mapGet_fold] at hget
  have hname : (finalizeAcc now p.2).user_name = p.1 := hok
  by_cases hi : involved p.1 ts = true
  · rw [if_pos hi] at hget
    have hacc : p.2 = addContrib p.1 ts (seedAcc p.1) :=
      (Option.some.injEq .. ▸ hget).symm
    constructor
    · rw [hname]; exact hi
    · rw [hname, ← hacc]
  · rw [if_neg hi] at hget
    exact absurd hget (by simp)

/-- When the assignee name is non-empty (as the normalizer guarantees),
the code's assignee-side guard coincides with the claim's wording. -/
theorem fixHit_eq_present {t : NormalizedTicket} (h : t.assignee_name ≠ "")
    (u : String) : fixHit u t = fixHitPresent u t := by
  unfold fixHit fixHitPresent fixCond
  have hne : (t.assignee_name == "") = false := beq_eq_false_iff_ne.mpr h
  cases h1 : (t.status_category == "done") <;>
    cases h2 : (t.assignee_name == "Unassigned") <;>
    cases h3 : (t.assignee_name == u) <;>
    simp [h1, h2, h3, hne]

/-- Under the same presence guarantee, involvement coincides with the
claim's qualification. -/
theorem involved_eq_claim {ts : List NormalizedTicket}
    (hpres : ∀ t ∈ ts, t.assignee_name ≠ "") (u : String) :
    involved u ts = claimInvolved u ts := by
  unfold involved claimInvolved
  exact any_congr_mem _ _ _
    (fun t ht => by rw [fixHit_eq_present (hpres t ht) u])

/-- C2: over any ticket set whose rows carry a non-empty assignee name
(every row the normalizer produces does), the Score Aggregator emits
exactly one UserScore per user qualifying as a new-bug reporter or a done
ticket's present, non-sentinel assignee, and that row carries the claimed
counts, sums, and total. -/
theorem C2_scoreAggregator (now : String) (ts : List NormalizedTicket)
    (hpres : ∀ t ∈ ts, t.assignee_name ≠ "") (u : String) :
    ((computeScores now ts).countP (fun s => s.user_name == u) =
      if claimInvolved u ts then 1 else 0) ∧
    (∀ s ∈ computeScores now ts, s.user_name = u →
      s.bugs_reported = specReported u ts ∧
      s.reporter_points = specRepPoints u ts ∧
      s.bugs_fixed = claimFixed u ts ∧
      s.assignee_points = claimFixPoints u ts ∧
      s.total_points = s.reporter_points + s.assignee_points) := by
  have hfix : claimFixed u ts = specFixed u ts := by
    unfold claimFixed specFixed
    exact countP_congr_mem _ _ _
      (fun t ht => (fixHit_eq_present (hpres t ht) u).symm)
  have hfixP : claimFixPoints u ts = specFixPoints u ts := by
    unfold claimFixPoints specFixPoints
    rw [filter_congr_mem _ _ (fixHit u)
      (fun t ht => (fixHit_eq_present (hpres t ht) u).symm)]
  constructor
  · rw [computeScores_countP, involved_eq_claim hpres]
  · intro s hs hsu
    obtain ⟨_, hs_eq⟩ := computeScores_mem hs
    rw [hsu] at hs_eq
    subst hs_eq
    rw [hfix, hfixP]
    refine ⟨?_, ?_, ?_, ?_, ?_⟩ <;>
      simp [finalizeAcc, addContrib, seedAcc]

/-- Witness for C2 at a one-ticket set: bob fixed the done 8-point
ticket. -/
theorem C2_scoreAggregator_witness :
    ((computeScores "T0" [normalizeTicket "T0" rawDone]).countP
      (fun s => s.user_name == "bob") = 1) ∧
    (∀ s ∈ computeScores "T0" [normalizeTicket "T0" rawDone],
      s.user_name = "bob" → s.bugs_fixed = 1) := by
  have h := C2_scoreAggregator "T0" [normalizeTicket "T0" rawDone]
    (by intro t ht; simp at ht; subst ht; decide) "bob"
  constructor
  · rw [h.1]; rfl
  · intro s hs hsu
    rw [(h.2 s hs hsu).2.2.1]; rfl

/-! ### Upsert lemmas -/

/-- Replacing rows of one key leaves lookups of other keys unchanged. -/
theorem find?_map_replace {α : Type} (key : α → String) (r : α) (u : String)
    (hne : key r ≠ u) : ∀ tbl : List α,
    ((tbl.map (fun x => if key x == key r then r else x)).find?
      (fun x => key x == u)) = tbl.find? (fun x => key x == u) := by
  have hru : (key r == u) = false := beq_eq_false_iff_ne.mpr hne
  intro tbl
  induction tbl with
  | nil => rfl
  | cons hd tl ih =>
      rw [List.map_cons]
      by_cases hh : (key hd == key r) = true
      · rw [if_pos hh]
        rw [beq_iff_eq] at hh
        have h2 : (key hd == u) = false :=
          beq_eq_false_iff_ne.mpr (by rw [hh]; exact hne)
        rw [List.find?_cons_of_neg _ (by simp [hru]),
          List.find?_cons_of_neg _ (by simp [h2]), ih]
      · rw [if_neg hh]
        cases hc : (key hd == u)
        · rw [List.find?_cons_of_neg _ (by simp [hc]),
            List.find?_cons_of_neg _ (by simp [hc]), ih]
        · simp [List.find?_cons, hc]

/-- A single upsert of a row with a different key leaves a key's lookup
unchanged. -/
theorem find?_replaceOrAppend_ne {α : Type} (key : α → String)
    (tbl : List α) (r : α) (u : String) (hne : key r ≠ u) :
    ((replaceOrAppend key tbl r).find? (fun x => key x == u)) =
      tbl.find? (fun x => key x == u) := by
  unfold replaceOrAppend
  by_cases h : tbl.any (fun x => key x == key r) = true
  · rw [if_pos h]
    exact find?_map_replace key r u hne tbl
  · rw [if_neg h, List.find?_append]
    have h1 : List.find? (fun x => key x == u) [r] = none := by
      have hru : (key r == u) = false := beq_eq_false_iff_ne.mpr hne
      simp [hru]
    rw [h1]
    cases hf : tbl.find? (fun x => key x == u) <;> simp

/-- A bulk upsert whose batch avoids a key leaves that key's lookup
unchanged. -/
theorem find?_upsertBy_not_mem {α : Type} (key : α → String) (u : String) :
    ∀ (batch tbl : List α), (∀ r ∈ batch, key r ≠ u) →
    ((upsertBy key tbl batch).find? (fun x => key x == u)) =
      tbl.find? (fun x => key x == u) := by
  intro batch
  induction batch with
  | nil => intro tbl _; rfl
  | cons b rest ih =>
      intro tbl hb
      show ((upsertBy key (replaceOrAppend key tbl b) rest).find? _) = _
      rw [ih _ (fun r hr => hb r (List.mem_cons_of_mem _ hr)),
        find?_replaceOrAppend_ne key tbl b u (hb b (List.mem_cons_self _ _))]

/-- A single upsert of a row makes that row the lookup result for its
key. -/
theorem find?_replaceOrAppend_hit {α : Type} (key : α → String)
    (tbl : List α) (b : α) :
    ((replaceOrAppend key tbl b).find? (fun x => key x == key b)) = some b := by
  unfold replaceOrAppend
  by_cases h : tbl.any (fun x => key x == key b) = true
  · rw [if_pos h]
    rw [List.any_eq_true] at h
    induction tbl with
    | nil => simp at h
    | cons hd tl ih =>
        rw [List.map_cons]
        by_cases hh : (key hd == key b) = true
        · rw [if_pos hh]
          rw [List.find?_cons_of_pos _ (by simp)]
        · rw [if_neg hh]
          rcases h with ⟨x, hx, hxk⟩
          rcases List.mem_cons.mp hx with rfl | hx'
          · exact absurd hxk hh
          · rw [List.find?_cons_of_neg _ (by simp [hh])]
            exact ih ⟨x, hx', hxk⟩
  · rw [if_neg h, List.find?_append]
    have h1 : tbl.find? (fun x => key x == key b) = none := by
      rw [List.find?_eq_none]
      intro x hx hxk
      exact h (List.any_eq_true.mpr ⟨x, hx, hxk⟩)
    rw [h1]
    simp

/-- A bulk upsert whose batch has distinct keys makes each batch row the
lookup result for its key. -/
theorem find?_upsertBy_hit {α : Type} (key : α → String) :
    ∀ (batch tbl : List α) (b : α), b ∈ batch →
    (batch.map key).Nodup →
    ((upsertBy key tbl batch).find? (fun x => key x == key b)) = some b := by
  intro batch
  induction batch with
  | nil => intro tbl b hb; simp at hb
  | cons c rest ih =>
      intro tbl b hb hnd
      rw [List.map_cons, List.nodup_cons] at hnd
      show ((upsertBy key (replaceOrAppend key tbl c) rest).find? _) = _
      rcases List.mem_cons.mp hb with rfl | hb'
      · rw [find?_upsertBy_not_mem key (key b) rest _
          (fun r hr hkr => hnd.1 (hkr ▸ List.mem_map_of_mem key hr))]
        exact find?_replaceOrAppend_hit key tbl b
      · exact ih _ b hb' hnd.2

/-- An involved user's name appears in the ticket set. -/
theorem involved_appears {u : String} {ts : List NormalizedTicket}
    (h : involved u ts = true) : appearsIn u ts = true := by
  unfold involved at h
  unfold appearsIn
  rw [List.any_eq_true] at h ⊢
  obtain ⟨t, ht, hor⟩ := h
  refine ⟨t, ht, ?_⟩
  rw [Bool.or_eq_true] at hor ⊢
  rcases hor with h1 | h1
  · left
    unfold repHit at h1
    rw [Bool.and_eq_true] at h1
    exact h1.2
  · right
    unfold fixHit at h1
    rw [Bool.and_eq_true] at h1
    exact h1.2

/-- C10: the Score Aggregator only writes rows whose user name appears in
the current ticket set, and the persisted row of any user absent from
that set is untouched by `updateUserScores`, whatever the scenario. -/
theorem C10_absentUserFrame (sc : Scenario) (now : String) (st : Store)
    (u : String) (h : appearsIn u st.tickets = false) :
    (∀ r ∈ computeScores now st.tickets,
      appearsIn r.user_name st.tickets = true) ∧
    findScore u (updateUserScores sc now st).1.user_scores =
      findScore u st.user_scores := by
  refine ⟨fun r hr => involved_appears (computeScores_mem hr).1, ?_⟩
  unfold updateUserScores
  cases hr : sc.scoresTicketsRead with
  | some e => rfl
  | none =>
      cases hup : sc.scoresUpsertErr with
      | some e => rfl
      | none =>
          show findScore u (upsertBy (fun s => s.user_name)
            st.user_scores (computeScores now st.tickets)) = _
          unfold findScore
          apply find?_upsertBy_not_mem
          intro r hrb hru
          have happ := involved_appears (computeScores_mem hrb).1
          rw [hru, h] at happ
          exact Bool.false_ne_true happ

/-- Witness for C10: the stale row of the absent user "nobody" survives a
rescoring run unchanged. -/
theorem C10_absentUserFrame_witness :
    appearsIn "nobody" stWithOld.tickets = false ∧
    findScore "nobody" (updateUserScores scAllOk "T1" stWithOld).1.user_scores =
      findScore "nobody" stWithOld.user_scores :=
  ⟨by decide, (C10_absentUserFrame scAllOk "T1" stWithOld "nobody" (by decide)).2⟩

/-- The score array's user names are distinct. -/
theorem computeScores_names_nodup (now : String)
    (ts : List NormalizedTicket) :
    ((computeScores now ts).map (fun s => s.user_name)).Nodup := by
  unfold computeScores
  rw [List.map_map]
  have hok := namesOk_fold ts [] namesOk_nil
  have hcg : ∀ p ∈ ts.foldl stepTicket [],
      ((fun s : UserScore => s.user_name) ∘ (fun p => finalizeAcc now p.2)) p
        = p.1 := fun p hp => hok p hp
  rw [List.map_congr_left hcg]
  exact nodup_keysOf_fold ts [] (by simp [keysOf])

/-- After upserting the score array over any prior table, each involved
user's lookup is the freshly computed row. -/
theorem computeScores_lookup (now : String) (ts : List NormalizedTicket)
    (u : String) (hu : involved u ts = true) (tbl : List UserScore) :
    findScore u (upsertBy (fun s => s.user_name) tbl (computeScores now ts)) =
      some (finalizeAcc now (addContrib u ts (seedAcc u))) := by
  have hget : mapGet (ts.foldl stepTicket []) u =
      some (addContrib u ts (seedAcc u)) := by
    rw [mapGet_fold, if_pos hu]
  have hmem := mapGet_eq_some_mem hget
  have hbmem : finalizeAcc now (addContrib u ts (seedAcc u)) ∈
      computeScores now ts :=
    List.mem_map_of_mem (fun p => finalizeAcc now p.2) hmem
  have hkey : (finalizeAcc now (addContrib u ts (seedAcc u))).user_name = u := rfl
  have h := find?_upsertBy_hit (fun s : UserScore => s.user_name)
    (computeScores now ts) tbl _ hbmem (computeScores_names_nodup now ts)
  unfold findScore
  simp only [hkey] at h
  exact h

/-- C8: rescoring is a pure function of the ticket set: over equal ticket
tables, whatever the prior user-score rows of either store, the computed
score array is identical and every involved user's upserted row is
identical. -/
theorem C8_recomputationDeterministic (sc sc' : Scenario) (now : String)
    (st st' : Store) (ht : st.tickets = st'.tickets)
    (h1 : sc.scoresTicketsRead = none) (h1' : sc'.scoresTicketsRead = none)
    (h2 : sc.scoresUpsertErr = none) (h2' : sc'.scoresUpsertErr = none) :
    computeScores now st.tickets = computeScores now st'.tickets ∧
    ∀ u, involved u st.tickets = true →
      findScore u (updateUserScores sc now st).1.user_scores =
        findScore u (updateUserScores sc' now st').1.user_scores := by
  refine ⟨by rw [ht], ?_⟩
  intro u hu
  unfold updateUserScores
  rw [h1, h1', h2, h2']
  show findScore u (upsertBy (fun s => s.user_name) st.user_scores
      (computeScores now st.tickets)) =
    findScore u (upsertBy (fun s => s.user_name) st'.user_scores
      (computeScores now st'.tickets))
  rw [computeScores_lookup now st.tickets u hu,
    computeScores_lookup now st'.tickets u (ht ▸ hu), ht]

/-- Witness for C8: two stores with the same single done ticket but
different prior rows produce the same upserted row for bob. -/
theorem C8_recomputationDeterministic_witness :
    involved "bob" stWithOld.tickets = true ∧
    findScore "bob" (updateUserScores scAllOk "T1" stWithOld).1.user_scores =
      findScore "bob" (updateUserScores scAllOk "T1"
        { stWithOld with user_scores := [] }).1.user_scores :=
  ⟨by decide,
    (C8_recomputationDeterministic scAllOk scAllOk "T1" stWithOld
      { stWithOld with user_scores := [] } rfl rfl rfl rfl rfl).2 "bob"
      (by decide)⟩

/-- Counting a predicate that implies the filter is unaffected by the
filter. -/
theorem countP_filter_superset {α : Type} (p q : α → Bool)
    (h : ∀ a, p a = true → q a = true) :
    ∀ l : List α, (l.filter q).countP p = l.countP p := by
  intro l
  induction l with
  | nil => rfl
  | cons a tl ih =>
      rw [List.filter_cons]
      cases hq : q a
      · have hp : p a = false := by
          cases hp : p a
          · rfl
          · rw [h a hp] at hq; cases hq
        simp [List.countP_cons, hp, ih]
      · simp [List.countP_cons, ih]

/-- Filtering by a predicate that implies the outer filter is unaffected
by the outer filter. -/
theorem filter_filter_superset {α : Type} (p q : α → Bool)
    (h : ∀ a, p a = true → q a = true) :
    ∀ l : List α, (l.filter q).filter p = l.filter p := by
  intro l
  induction l with
  | nil => rfl
  | cons a tl ih =>
      rw [List.filter_cons]
      cases hq : q a
      · have hp : p a = false := by
          cases hp : p a
          · rfl
          · rw [h a hp] at hq; cases hq
        simp [List.filter_cons, hp, ih]
      · simp [List.filter_cons, ih]

/-- No ticket ever hits the sentinel name on the assignee side. -/
theorem fixHit_unassigned (t : NormalizedTicket) :
    fixHit "Unassigned" t = false := by
  unfold fixHit fixCond
  cases h1 : (t.status_category == "done") <;>
    cases h2 : (t.assignee_name == "Unassigned") <;> simp [h1, h2]

/-- An assignee-side hit never lands on a done-with-sentinel ticket. -/
theorem fixHit_notSentinelDone {u : String} {t : NormalizedTicket}
    (h : fixHit u t = true) : notSentinelDone t = true := by
  unfold fixHit fixCond at h
  unfold notSentinelDone
  rw [Bool.and_eq_true, Bool.and_eq_true] at h
  rw [h.1.1]
  simp only [Bool.true_and]
  exact h.1.2

/-- C9: a done ticket whose normalized assignee name is exactly the
"Unassigned" sentinel contributes to no user's fixed count or assignee
points (those values only depend on the other tickets), and the name
"Unassigned" appears in the aggregator output only through reporter-side
hits. -/
theorem C9_sentinelAssignee (now : String) (ts : List NormalizedTicket) :
    (∀ u, specFixed u ts = specFixed u (ts.filter notSentinelDone) ∧
      specFixPoints u ts = specFixPoints u (ts.filter notSentinelDone)) ∧
    (∀ s ∈ computeScores now ts,
      s.bugs_fixed = specFixed s.user_name ts ∧
      s.assignee_points = specFixPoints s.user_name ts) ∧
    (∀ s ∈ computeScores now ts, s.user_name = "Unassigned" →
      ts.any (repHit "Unassigned") = true) := by
  refine ⟨?_, ?_, ?_⟩
  · intro u
    constructor
    · unfold specFixed
      exact (countP_filter_superset (fixHit u) notSentinelDone
        (fun t => fixHit_notSentinelDone) ts).symm
    · unfold specFixPoints
      rw [filter_filter_superset (fixHit u) notSentinelDone
        (fun t => fixHit_notSentinelDone) ts]
  · intro s hs
    obtain ⟨_, hs_eq⟩ := computeScores_mem hs
    constructor
    · conv_lhs => rw [hs_eq]
      simp [finalizeAcc, addContrib, seedAcc]
    · conv_lhs => rw [hs_eq]
      simp [finalizeAcc, addContrib, seedAcc]
  · intro s hs hname
    have hi := (computeScores_mem hs).1
    rw [hname] at hi
    unfold involved at hi
    rw [any_congr_mem ts _ (repHit "Unassigned")
      (fun t _ => by rw [fixHit_unassigned t, Bool.or_false])] at hi
    exact hi

/-- An involved user's finalized contribution row is in the score array. -/
theorem computeScores_mem_of_involved (now : String)
    (ts : List NormalizedTicket) (u : String) (hu : involved u ts = true) :
    finalizeAcc now (addContrib u ts (seedAcc u)) ∈ computeScores now ts := by
  have hget : mapGet (ts.foldl stepTicket []) u =
      some (addContrib u ts (seedAcc u)) := by
    rw [mapGet_fold, if_pos hu]
  exact List.mem_map_of_mem _ (mapGet_eq_some_mem hget)

/-- Witness for C9 on the mixed ticket set: bob's fixed count ignores the
sentinel-assigned done ticket, bob's row is in the output with the claimed
fixed count, and the "Unassigned" row exists only because that name
reported a new bug. -/
theorem C9_sentinelAssignee_witness :
    (specFixed "bob" ticketsMixed =
      specFixed "bob" (ticketsMixed.filter notSentinelDone)) ∧
    (finalizeAcc "T0" (addContrib "bob" ticketsMixed (seedAcc "bob")) ∈
      computeScores "T0" ticketsMixed) ∧
    ((finalizeAcc "T0" (addContrib "bob" ticketsMixed (seedAcc "bob"))).bugs_fixed
      = specFixed "bob" ticketsMixed) ∧
    ticketsMixed.any (repHit "Unassigned") = true := by
  have hbob := computeScores_mem_of_involved "T0" ticketsMixed "bob" (by decide)
  have hun := computeScores_mem_of_involved "T0" ticketsMixed "Unassigned"
    (by decide)
  refine ⟨((C9_sentinelAssignee "T0" ticketsMixed).1 "bob").1, hbob, ?_, ?_⟩
  · exact ((C9_sentinelAssignee "T0" ticketsMixed).2.1 _ hbob).1
  · exact (C9_sentinelAssignee "T0" ticketsMixed).2.2
      (finalizeAcc "T0" (addContrib "Unassigned" ticketsMixed
        (seedAcc "Unassigned"))) hun rfl

/-- The distinct-count of the concatenated name lists is the cardinality
of the union of their name sets. -/
theorem dedup_length_eq_union_card (A B : List String) :
    (A ++ B).dedup.length = (A.toFinset ∪ B.toFinset).card := by
  rw [← List.toFinset_append, List.card_toFinset]

/-- C6: when its two reads and its upsert succeed, the Daily Stats
Aggregator writes exactly one row for the current date carrying the count
of tickets created on or after the date boundary, the count of done
tickets resolved on or after it, the sum of their assignee points, and the
cardinality of the union of reporter names (first set) and assignee names
(second set); every other date's row is untouched. -/
theorem C6_dailyStats (sc : Scenario) (today : String) (st : Store)
    (h1 : sc.dailyCreatedRead = none) (h2 : sc.dailyFixedRead = none)
    (h3 : sc.dailyUpsertErr = none) :
    (findDaily today (updateDailyStats sc today st).1.daily_stats =
      some { date := today
             bugs_created :=
               (st.tickets.filter (createdTodayFilter today)).length
             bugs_fixed :=
               (st.tickets.filter (fixedTodayFilter today)).length
             points_earned :=
               ((st.tickets.filter (fixedTodayFilter today)).map
                 (fun t => t.assignee_points)).sum
             active_users :=
               (((st.tickets.filter (createdTodayFilter today)).map
                   (fun t => t.reporter_name)).toFinset ∪
                ((st.tickets.filter (fixedTodayFilter today)).map
                   (fun t => t.assignee_name)).toFinset).card }) ∧
    (∀ d, d ≠ today →
      findDaily d (updateDailyStats sc today st).1.daily_stats =
        findDaily d st.daily_stats) := by
  simp only [updateDailyStats, h1, h2, h3, Option.getD_some]
  constructor
  · unfold findDaily
    have hhit := find?_upsertBy_hit (fun d : DailyStat => d.date)
      [({ date := today
          bugs_created := (st.tickets.filter (createdTodayFilter today)).length
          bugs_fixed := (st.tickets.filter (fixedTodayFilter today)).length
          points_earned := ((st.tickets.filter (fixedTodayFilter today)).map
            (fun t => t.assignee_points)).sum
          active_users := (((st.tickets.filter (createdTodayFilter today)).map
              (fun t => t.reporter_name)
            ++ (st.tickets.filter (fixedTodayFilter today)).map
              (fun t => t.assignee_name)).dedup).length } : DailyStat)]
      st.daily_stats _ (List.mem_singleton.mpr rfl) (by simp)
    simp only [] at hhit
    rw [← dedup_length_eq_union_card]
    exact hhit
  · intro d hd
    unfold findDaily
    have hne := find?_upsertBy_not_mem (fun x : DailyStat => x.date) d
      [({ date := today
          bugs_created := (st.tickets.filter (createdTodayFilter today)).length
          bugs_fixed := (st.tickets.filter (fixedTodayFilter today)).length
          points_earned := ((st.tickets.filter (fixedTodayFilter today)).map
            (fun t => t.assignee_points)).sum
          active_users := (((st.tickets.filter (createdTodayFilter today)).map
              (fun t => t.reporter_name)
            ++ (st.tickets.filter (fixedTodayFilter today)).map
              (fun t => t.assignee_name)).dedup).length } : DailyStat)]
      st.daily_stats
      (by intro r hr
          rw [List.mem_singleton.mp hr]
          exact fun hcontra => hd hcontra.symm)
    exact hne

/-- Witness for C6 on the mixed store: three tickets created on the
current date, two done ones resolved on it worth 13 points, three distinct
active names, and yesterday's row untouched. -/
theorem C6_dailyStats_witness :
    (findDaily "2024-01-01"
      (updateDailyStats scAllOk "2024-01-01" stMixed).1.daily_stats =
      some { date := "2024-01-01", bugs_created := 3, bugs_fixed := 2,
             points_earned := 13, active_users := 3 }) ∧
    findDaily "2023-12-31"
      (updateDailyStats scAllOk "2024-01-01" stMixed).1.daily_stats =
      findDaily "2023-12-31" stMixed.daily_stats := by
  have h := C6_dailyStats scAllOk "2024-01-01" stMixed rfl rfl rfl
  refine ⟨?_, h.2 "2023-12-31" (by decide)⟩
  rw [h.1]
  simp only [Option.some.injEq, DailyStat.mk.injEq]
  refine ⟨trivial, by decide, by decide, ?_, by decide⟩
  have hmap : ((stMixed.tickets.filter (fixedTodayFilter "2024-01-01")).map
      (fun t => t.assignee_points)) = [(8 : Rat), 5] := rfl
  rw [hmap]
  norm_num

/-! ### Achievement lemmas -/

/-- With a working select, a unique existing row makes the grant a no-op. -/
theorem grant_noop (sc : Scenario) (now uN b d : String) (st : Store)
    (a : Achievement) (hsel : sc.achSelectErr = none)
    (hfil : st.achievements.filter (achKey uN b) = [a]) :
    grantAchievement sc now uN b d st = (st, [.achSelect]) := by
  unfold grantAchievement singleRow
  rw [if_neg (by rw [hsel]; simp), hfil]

/-- With working select and insert, an absent row makes the grant append
the fresh row. -/
theorem grant_insert (sc : Scenario) (now uN b d : String) (st : Store)
    (hsel : sc.achSelectErr = none) (hins : sc.achInsertErr = none)
    (hfil : st.achievements.filter (achKey uN b) = []) :
    grantAchievement sc now uN b d st =
      ({ st with
          achievements := st.achievements ++ [newAchievement now uN b d] },
       [.achSelect, .achInsert]) := by
  unfold grantAchievement singleRow
  rw [if_neg (by rw [hsel]; simp), hfil, hins]

/-- The fresh row matches its own key. -/
theorem achKey_self (now uN b d : String) :
    achKey uN b (newAchievement now uN b d) = true := by
  unfold achKey newAchievement
  simp

/-- The fresh row matches no other key. -/
theorem achKey_other (now uN b d u' b' : String)
    (h : ¬(u' = uN ∧ b' = b)) :
    achKey u' b' (newAchievement now uN b d) = false := by
  unfold achKey newAchievement
  by_cases h1 : uN = u' <;> by_cases h2 : b = b' <;>
    simp [h1, h2]
  exact h ⟨h1.symm, h2.symm⟩

/-- C7: under the at-most-one-row-per-key invariant (which granting
preserves), granting an already-present achievement is a no-op on the
store, and granting an absent one twice stores exactly one row whose
`earned_at` is that of the first grant. -/
theorem C7_achievementIdempotent (sc : Scenario) (now now2 uN b d d2 : String)
    (st : Store) (hinv : atMostOnePerKey st.achievements)
    (hsel : sc.achSelectErr = none) (hins : sc.achInsertErr = none) :
    ((st.achievements.filter (achKey uN b)) ≠ [] →
      (grantAchievement sc now uN b d st).1 = st) ∧
    atMostOnePerKey (grantAchievement sc now uN b d st).1.achievements ∧
    ((st.achievements.filter (achKey uN b)) = [] →
      ((grantAchievement sc now2 uN b d2
          (grantAchievement sc now uN b d st).1).1 =
        (grantAchievement sc now uN b d st).1) ∧
      (((grantAchievement sc now uN b d st).1.achievements.filter
          (achKey uN b)).map (fun a => a.earned_at)) = [now]) := by
  have hexists : st.achievements.filter (achKey uN b) = [] ∨
      ∃ a, st.achievements.filter (achKey uN b) = [a] := by
    have hlen := hinv uN b
    rcases hfil : st.achievements.filter (achKey uN b) with _ | ⟨a, rest⟩
    · exact Or.inl rfl
    · rcases rest with _ | ⟨a2, rest2⟩
      · exact Or.inr ⟨a, rfl⟩
      · rw [hfil] at hlen; simp at hlen
  refine ⟨?_, ?_, ?_⟩
  · intro hne
    rcases hexists with hfil | ⟨a, hfil⟩
    · exact absurd hfil hne
    · rw [grant_noop sc now uN b d st a hsel hfil]
  · rcases hexists with hfil | ⟨a, hfil⟩
    · rw [grant_insert sc now uN b d st hsel hins hfil]
      intro u' b'
      show ((st.achievements ++ [newAchievement now uN b d]).filter
        (achKey u' b')).length ≤ 1
      rw [List.filter_append]
      by_cases hk : u' = uN ∧ b' = b
      · obtain ⟨rfl, rfl⟩ := hk
        rw [hfil]
        simp [achKey_self]
      · have hrow := achKey_other now uN b d u' b' hk
        rw [show (List.filter (achKey u' b') [newAchievement now uN b d])
            = [] from by simp [List.filter, hrow]]
        rw [List.append_nil]
        exact hinv u' b'
    · rw [grant_noop sc now uN b d st a hsel hfil]
      exact hinv
  · intro hfil
    rw [grant_insert sc now uN b d st hsel hins hfil]
    have hfil1 : ((st.achievements ++ [newAchievement now uN b d]).filter
        (achKey uN b)) = [newAchievement now uN b d] := by
      rw [List.filter_append, hfil]
      simp [achKey_self]
    constructor
    · rw [grant_noop sc now2 uN b d2 _ (newAchievement now uN b d) hsel hfil1]
    · rw [hfil1]
      rfl

/-- Witness for C7: granting alice the champion badge twice on an empty
achievements table stores exactly one row stamped with the first grant's
time. -/
theorem C7_achievementIdempotent_witness :
    ((grantAchievement scAllOk "T2" "alice" championBadge "Leading!"
        (grantAchievement scAllOk "T1" "alice" championBadge "Leading!"
          stEmpty).1).1 =
      (grantAchievement scAllOk "T1" "alice" championBadge "Leading!"
        stEmpty).1) ∧
    (((grantAchievement scAllOk "T1" "alice" championBadge "Leading!"
        stEmpty).1.achievements.filter
          (achKey "alice" championBadge)).map (fun a => a.earned_at))
      = ["T1"] := by
  have h := C7_achievementIdempotent scAllOk "T1" "T2" "alice" championBadge
    "Leading!" "Leading!" stEmpty (by intro u b; simp [stEmpty]) rfl rfl
  exact h.2.2 rfl

/-! ### Orchestrator lemmas -/

/-- The score step performs its select, then at most its upsert. -/
theorem uus_trace (sc : Scenario) (now : String) (st : Store) :
    (updateUserScores sc now st).2 = [.scoresTicketsSelect] ∨
    (updateUserScores sc now st).2 =
      [.scoresTicketsSelect, .scoresUpsert] := by
  unfold updateUserScores
  cases h : sc.scoresTicketsRead
  · cases h2 : sc.scoresUpsertErr <;> simp
  · simp

/-- The daily step always performs its two selects and its upsert. -/
theorem uds_trace (sc : Scenario) (today : String) (st : Store) :
    (updateDailyStats sc today st).2 =
      [.dailyCreatedSelect, .dailyFixedSelect, .dailyUpsert] := by
  unfold updateDailyStats
  cases h : sc.dailyUpsertErr <;> rfl

/-- A grant performs its select, then at most its insert. -/
theorem grant_trace (sc : Scenario) (now uN b d : String) (st : Store) :
    (grantAchievement sc now uN b d st).2 = [.achSelect] ∨
    (grantAchievement sc now uN b d st).2 = [.achSelect, .achInsert] := by
  unfold grantAchievement
  cases h : singleRow sc st.achievements uN b
  · cases h2 : sc.achInsertErr <;> simp
  · simp

/-- The achievements step performs its select, then at most one grant. -/
theorem ca_trace (sc : Scenario) (now : String) (st : Store) :
    (checkAchievements sc now st).2 = [.achScoresSelect] ∨
    (checkAchievements sc now st).2 = [.achScoresSelect, .achSelect] ∨
    (checkAchievements sc now st).2 =
      [.achScoresSelect, .achSelect, .achInsert] := by
  unfold checkAchievements
  cases h : sc.achScoresRead
  · simp only []
    cases hh : (st.user_scores.mergeSort
        (fun a b => decide (b.total_points ≤ a.total_points))).head? with
    | none => simp
    | some u =>
        rcases grant_trace sc now u.user_name championBadge
          "Leading the bugathon!" st with hg | hg <;> simp [hg]
  · simp

/-- The trace of a fully-reached sync run: the fetch, the ticket upsert,
then the shapes of the three remaining steps. -/
theorem sync_trace_ok (sc : Scenario) (now today : String) (st : Store)
    (ts : List RawTicket) (hf : sc.fetch = .ok ts)
    (hup : sc.ticketsUpsertErr = none) :
    ∃ l2 l4, (syncBugathonData sc now today st).2.2 =
      .fetchJira :: ([.ticketsUpsert] ++ l2 ++
        [.dailyCreatedSelect, .dailyFixedSelect, .dailyUpsert] ++ l4) ∧
      (l2 = [.scoresTicketsSelect] ∨
        l2 = [.scoresTicketsSelect, .scoresUpsert]) ∧
      (l4 = [.achScoresSelect] ∨ l4 = [.achScoresSelect, .achSelect] ∨
        l4 = [.achScoresSelect, .achSelect, .achInsert]) := by
  simp only [syncBugathonData, hf, processTickets, hup]
  rw [uds_trace]
  exact ⟨_, _, rfl, uus_trace sc now _, ca_trace sc now _⟩

/-- C5: with the transport and the ticket upsert succeeding, the sync
returns success carrying the fetched count whatever later store calls do; a
transport failure or a ticket-upsert failure yields the failure result
carrying that error with the store untouched and no later call executed;
and no call site is ever retried. -/
theorem C5_syncOrchestrator (sc : Scenario) (now today : String)
    (st : Store) :
    (∀ ts, sc.fetch = .ok ts → sc.ticketsUpsertErr = none →
      (syncBugathonData sc now today st).1 = .success ts.length) ∧
    (∀ e, sc.fetch = .error e →
      syncBugathonData sc now today st = (.failure e, st, [.fetchJira])) ∧
    (∀ ts e, sc.fetch = .ok ts → sc.ticketsUpsertErr = some e →
      syncBugathonData sc now today st =
        (.failure e, st, [.fetchJira, .ticketsUpsert])) ∧
    (syncBugathonData sc now today st).2.2.Nodup := by
  refine ⟨?_, ?_, ?_, ?_⟩
  · intro ts hf hup
    simp [syncBugathonData, hf, processTickets, hup]
  · intro e hf
    simp [syncBugathonData, hf]
  · intro ts e hf hup
    simp [syncBugathonData, hf, processTickets, hup]
  · rcases hf : sc.fetch with e | ts
    · simp [syncBugathonData, hf]
    · rcases hup : sc.ticketsUpsertErr with _ | e
      · obtain ⟨l2, l4, htr, h2, h4⟩ := sync_trace_ok sc now today st ts hf hup
        rw [htr]
        rcases h2 with h2 | h2 <;> rcases h4 with h4 | h4 | h4 <;>
          rw [h2, h4] <;> decide
      · simp [syncBugathonData, hf, processTickets, hup]

/-- Witness for C5 at three concrete scenarios: success carrying the
fetched count, transport failure short-circuiting to the fetch alone, and
ticket-upsert failure short-circuiting after the upsert. -/
theorem C5_syncOrchestrator_witness :
    (syncBugathonData scTwoTickets "T0" "2024-01-01" stEmpty).1 =
      .success 2 ∧
    syncBugathonData scFetchFail "T0" "2024-01-01" stEmpty =
      (.failure "boom", stEmpty, [.fetchJira]) ∧
    syncBugathonData scUpsertFail "T0" "2024-01-01" stEmpty =
      (.failure "db down", stEmpty, [.fetchJira, .ticketsUpsert]) := by
  have h1 := C5_syncOrchestrator scTwoTickets "T0" "2024-01-01" stEmpty
  have h2 := C5_syncOrchestrator scFetchFail "T0" "2024-01-01" stEmpty
  have h3 := C5_syncOrchestrator scUpsertFail "T0" "2024-01-01" stEmpty
  exact ⟨h1.1 [rawMissing, rawDone] rfl rfl, h2.2.1 "boom" rfl,
    h3.2.2.1 [rawDone] "db down" rfl rfl⟩

/-- Counterexample to C4 as stated: in a run whose score-aggregation read
of the ticket set fails, the sync still reports success — the store
failure is silently swallowed instead of aborting the run. -/
theorem C4_counterexample :
    scScoreReadFail.scoresTicketsRead = some errScoreRead ∧
    (syncBugathonData scScoreReadFail "T0" "2024-01-01" stEmpty).1 =
      .success 1 := by
  exact ⟨rfl, rfl⟩

/-- C4 as amended: only the ticket-batch upsert of the normalize step
propagates a store error and aborts the sync; once the fetch and that
upsert succeed, the sync reports success whatever the remaining store
calls do — their failures (score-aggregation read or upsert, daily-stats
reads or upsert, achievement select or insert) are silently swallowed. -/
theorem C4_storeErrors_amended (sc : Scenario) (now today : String)
    (st : Store) :
    (∀ ts e, sc.fetch = .ok ts → sc.ticketsUpsertErr = some e →
      (syncBugathonData sc now today st).1 = .failure e) ∧
    (∀ ts, sc.fetch = .ok ts → sc.ticketsUpsertErr = none →
      (syncBugathonData sc now today st).1 = .success ts.length) := by
  constructor
  · intro ts e hf hup
    simp [syncBugathonData, hf, processTickets, hup]
  · intro ts hf hup
    simp [syncBugathonData, hf, processTickets, hup]

/-- Witness for the amended C4: the failing ticket-batch upsert surfaces
its error; the failing score-aggregation read is swallowed and the run
succeeds. -/
theorem C4_storeErrors_amended_witness :
    (syncBugathonData scUpsertFail "T0" "2024-01-01" stEmpty).1 =
      .failure "db down" ∧
    (syncBugathonData scScoreReadFail "T0" "2024-01-01" stEmpty).1 =
      .success 1 :=
  ⟨(C4_storeErrors_amended scUpsertFail "T0" "2024-01-01" stEmpty).1
      [rawDone] "db down" rfl rfl,
   (C4_storeErrors_amended scScoreReadFail "T0" "2024-01-01" stEmpty).2
      [rawDone] rfl rfl⟩

end Bugathon
